import Mathlib

/-!
Verification development for the `tasks.py` build-automation script of the
`autodiff` repository (an `invoke` task file).  The script manages a build
directory on the filesystem, renders command-line strings for the external
cmake / create-wrappers / test tools, and dispatches them to a shell.

The shallow embedding below models:
  * the filesystem as a partial map from paths (component lists) to nodes,
    with the `pathlib` operations used by the script (`is_dir`,
    `shutil.rmtree`, `mkdir(parents=True, exist_ok=...)`);
  * Python strings and the string helpers the script uses
    (`str.splitlines`, `str.strip`, `str.join`, `str.replace`);
  * the command-builder functions and the `compile` task body, with the
    ambient process state the script reads (environment variables, the
    current working directory, the script's own directory) passed
    explicitly, and `sys.platform.startswith('win')` as a boolean
    discriminator `win`.

Fallible Python operations (raising exceptions) are modelled with `Except`.
-/

/-! ### Filesystem model -/

/-- Kinds of filesystem nodes.  `file` stands for any non-directory node. -/
inductive Node where
  | file : Node
  | dir : Node
deriving DecidableEq, Repr

/-- A path, as the list of its name components (e.g. `/tmp/b` is
`["tmp", "b"]`). -/
abbrev FsPath := List String

/-- A filesystem: a partial map from paths to nodes.  `none` means the path
does not exist. -/
abbrev FS := FsPath → Option Node

/-- Exceptions raised by the modelled Python code: a missing-key lookup in
`os.environ`, a filesystem error (`FileExistsError` and friends), and a
`TypeError` from calling a function with the wrong number of arguments. -/
inductive PyErr where
  | keyError : PyErr
  | fsError : PyErr
  | typeError : PyErr
deriving DecidableEq, Repr

/-- `isLead p q` holds when the path `p` is an initial segment of the path
`q`, i.e. `q` is `p` itself or lies below `p` in the tree. -/
def isLead : FsPath → FsPath → Bool
  | [], _ => true
  | _ :: _, [] => false
  | a :: as, b :: bs => decide (a = b) && isLead as bs

/-- The proper ancestors of a path (every initial segment except the path
itself), ordered from the root downward. -/
def properAncestors : FsPath → List FsPath
  | [] => []
  | a :: as => [] :: (properAncestors as).map (a :: ·)

/-- Embeds `remove_directory` (tasks.py, lines 38-43): if the path is a
directory it is removed recursively (`shutil.rmtree`), otherwise nothing is
removed (only a message is printed). -/
def remove_directory (fs : FS) (path : FsPath) : FS :=
  if fs path = some Node.dir then
    fun q => if isLead path q then none else fs q
  else
    fs

/-- Embeds `pathlib.Path.mkdir(parents=True, exist_ok=exist_ok)`:
raises if some proper ancestor exists as a non-directory; raises
`FileExistsError` when the path itself exists, unless it is a directory and
`exist_ok` is true; otherwise creates the directory together with all of
its missing ancestors. -/
def mkdirParents (fs : FS) (p : FsPath) (exist_ok : Bool) : Except PyErr FS :=
  if (properAncestors p).any (fun q => decide (fs q = some Node.file)) then
    Except.error PyErr.fsError
  else
    match fs p with
    | some Node.dir =>
        if exist_ok then Except.ok fs else Except.error PyErr.fsError
    | some Node.file => Except.error PyErr.fsError
    | none => Except.ok (fun q => if isLead q p then some Node.dir else fs q)

/-- Embeds `_get_and_prepare_build` (tasks.py, lines 46-60): optionally
removes the build directory, then calls
`build_dir.mkdir(parents=True, exist_ok=not clean)` and returns the build
directory. -/
def _get_and_prepare_build (clean : Bool) (build_subdirectory : FsPath)
    (fs : FS) : Except PyErr (FsPath × FS) :=
  let build_dir := build_subdirectory
  let fs1 := if clean then remove_directory fs build_dir else fs
  match mkdirParents fs1 build_dir (!clean) with
  | Except.ok fs2 => Except.ok (build_dir, fs2)
  | Except.error e => Except.error e

/-! ### Python string helpers -/

/-- Worker for `str.splitlines`: `cur` holds the (reversed) characters of
the line being accumulated.  Line boundaries are the newline, the
carriage-return-plus-newline pair, and the lone carriage return; a
trailing line boundary produces no final empty line (as in Python).  (The
rarer Unicode line boundaries Python also recognises, such as form feed,
are not modelled; no input in this development contains them.) -/
def splitlinesAux : List Char → List Char → List String
  | [], cur => if cur = [] then [] else [String.mk cur.reverse]
  | '\r' :: '\n' :: cs, cur => String.mk cur.reverse :: splitlinesAux cs []
  | c :: cs, cur =>
    if c = '\n' ∨ c = '\r' then String.mk cur.reverse :: splitlinesAux cs []
    else splitlinesAux cs (c :: cur)

/-- Embeds Python `str.splitlines`. -/
def splitlines (s : String) : List String :=
  splitlinesAux s.data []

/-- Embeds Python `str.strip` on character lists: drop whitespace from the
front, then from the back. -/
def stripL (l : List Char) : List Char :=
  List.rdropWhile Char.isWhitespace (List.dropWhile Char.isWhitespace l)

/-- Embeds Python `str.strip`. -/
def pyStrip (s : String) : String :=
  String.mk (stripL s.data)

/-- Embeds Python `sep.join(items)`. -/
def joinWith (sep : String) : List String → String
  | [] => ""
  | [x] => x
  | x :: y :: rest => x ++ sep ++ joinWith sep (y :: rest)

/-- Embeds `strip_and_join` (tasks.py, lines 28-29):
`' '.join(line.strip() for line in s.splitlines() if line.strip() != '')`. -/
def strip_and_join (s : String) : String :=
  joinWith " " (((splitlines s).map pyStrip).filter (fun l => decide (l ≠ "")))

/-- `startsWithL n l` holds when the character list `n` is an initial
segment of `l`. -/
def startsWithL : List Char → List Char → Bool
  | [], _ => true
  | _ :: _, [] => false
  | a :: as, b :: bs => decide (a = b) && startsWithL as bs

/-- Worker for `str.replace`: replaces non-overlapping occurrences of `old`
left to right.  `skip` counts characters of an already-replaced occurrence
still to be consumed. -/
def pyReplaceAux (old new : List Char) : Nat → List Char → List Char
  | _, [] => []
  | k + 1, _ :: cs => pyReplaceAux old new k cs
  | 0, c :: cs =>
    if startsWithL old (c :: cs) ∧ old ≠ [] then
      new ++ pyReplaceAux old new (old.length - 1) cs
    else
      c :: pyReplaceAux old new 0 cs

/-- Embeds Python `s.replace(old, new)` for non-empty `old` (the script
only calls it as `.replace(":", "")`). -/
def pyReplace (s old new : String) : String :=
  String.mk (pyReplaceAux old.data new.data 0 s.data)

/-! ### Path model -/

/-- A `pathlib` POSIX-style path: whether it is absolute, plus its name
components.  Windows drive letters are not modelled; only the
POSIX-platform claims rely on path rendering. -/
structure PyPath where
  absolute : Bool
  comps : List String
deriving DecidableEq, Repr

/-- `str(path)` / `path.as_posix()` for a normalized path. -/
def pathStr (p : PyPath) : String :=
  (if p.absolute then "/" else "") ++ joinWith "/" p.comps

/-- Splits a character list at a separator character (keeping empty
pieces). -/
def splitSepAux (sep : Char) : List Char → List (List Char)
  | [] => [[]]
  | c :: cs =>
    match splitSepAux sep cs with
    | r :: rs => if c = sep then [] :: r :: rs else (c :: r) :: rs
    | [] => [[]]

/-- Embeds `pathlib.Path(s)` for a POSIX path string: absolute iff the
string starts with `/`; empty components (duplicate or trailing slashes)
are dropped, as `pathlib` normalizes them away. -/
def pathFromStr (s : String) : PyPath :=
  ⟨decide (s.data.head? = some '/'),
   ((splitSepAux '/' s.data).map String.mk).filter (fun x => decide (x ≠ ""))⟩

/-- The process environment, `os.environ`. -/
abbrev Env := String → Option String

/-- Embeds the module-level `BUILD_DIR_DEFAULT` (tasks.py, lines 10-18).
On Windows it is `Path(__file__).parent / "build-autodiff"`; elsewhere it
is `Path(os.environ['AUTODIFF_BUILD_DIR'].replace(":", ""))`, raising
`KeyError` when the variable is absent. -/
def BUILD_DIR_DEFAULT_value (win : Bool) (env : Env) (script_dir : PyPath) :
    Except PyErr PyPath :=
  if win then
    Except.ok ⟨script_dir.absolute, script_dir.comps ++ ["build-autodiff"]⟩
  else
    match env "AUTODIFF_BUILD_DIR" with
    | none => Except.error PyErr.keyError
    | some v => Except.ok (pathFromStr (pyReplace v ":" ""))

/-- Absolute component list of a path, resolving relative paths against the
current working directory (as `os.path.abspath` does, for already
normalized inputs). -/
def absComps (cwd : PyPath) (p : PyPath) : List String :=
  if p.absolute then p.comps else cwd.comps ++ p.comps

/-- Length of the longest shared leading component run of two paths. -/
def commonLen : List String → List String → Nat
  | a :: as, b :: bs => if a = b then commonLen as bs + 1 else 0
  | _, _ => 0

/-- Embeds `os.path.relpath(path, start)` (a purely lexical computation)
for already-normalized paths: climb with `..` out of the non-shared part of
`start`, then descend into the non-shared part of `path`. -/
def relpathComps (cwd : PyPath) (path start : PyPath) : List String :=
  let p := absComps cwd path
  let s := absComps cwd start
  let k := commonLen p s
  List.replicate (s.length - k) ".." ++ p.drop k

/-- Renders a relative path produced by `os.path.relpath` (which returns
the one-dot string for the empty relative path). -/
def relStr (comps : List String) : String :=
  if comps = [] then "." else joinWith "/" comps

/-! ### Command builders -/

/-- Embeds `_get_cmake_config_command` (tasks.py, lines 63-93).  Ambient
inputs made explicit: `win` (the platform test), `root_dir`
(`Path(__file__).parent`), `cwd` (the process working directory, consulted
by `os.path.relpath`), and the module global `BUILD_DIR_DEFAULT` (used by
the Windows branch). -/
def _get_cmake_config_command (win : Bool) (root_dir cwd : PyPath)
    (BUILD_DIR_DEFAULT : PyPath) (build_dir : PyPath)
    (cmake_generator : String) (cmake_arch : Option String)
    (config : String) : String :=
  let relative_root_dir := relStr (relpathComps cwd root_dir build_dir)
  let relative_artifacts_dir := relStr (relpathComps cwd build_dir cwd)
  if win then
    strip_and_join (joinWith "\n" [
      "",
      "            cmake",
      "                -G \"" ++ cmake_generator ++ "\"",
      "                -S " ++ pathStr root_dir,
      "                -B " ++ pathStr BUILD_DIR_DEFAULT,
      "        "])
  else
    strip_and_join (joinWith "\n" [
      "",
      "            cmake",
      "                -G \"" ++ cmake_generator ++ "\"",
      "                " ++ (match cmake_arch with
        | some a => "-A \"" ++ a ++ "\""
        | none => ""),
      "                -DCMAKE_BUILD_TYPE=" ++ config,
      "                -DCMAKE_INSTALL_PREFIX=\"" ++ relative_artifacts_dir ++ "\"",
      "                \"" ++ relative_root_dir ++ "\"",
      "        "])

/-- Embeds `_get_cmake_build_command` (tasks.py, lines 96-105). -/
def _get_cmake_build_command (build_dir : PyPath) (config : String)
    (number_of_jobs : Int) : String :=
  strip_and_join (joinWith "\n" [
    "",
    "        cmake",
    "            --build " ++ pathStr build_dir,
    "            --target install",
    "            --config " ++ config,
    "            --",
    "                " ++ (if 1 ≤ number_of_jobs
      then "-j " ++ toString number_of_jobs else ""),
    "    "])

/-- Embeds `_get_wrappers_command` (tasks.py, lines 108-120).  The `c`
context parameter of the source function is unused by its body and omitted
here; the function reads the `CONDA_PREFIX` environment variable, raising
`KeyError` when it is absent. -/
def _get_wrappers_command (win : Bool) (env : Env) (wrappers_dir : PyPath) :
    Except PyErr String :=
  match env "CONDA_PREFIX" with
  | none => Except.error PyErr.keyError
  | some conda_prefix =>
    let autodiff_env_path :=
      if win then conda_prefix ++ "\\Library\\bin" else conda_prefix ++ "/bin"
    Except.ok (strip_and_join (joinWith "\n" [
      "",
      "        create-wrappers",
      "            -t conda",
      "            --bin-dir " ++ autodiff_env_path,
      "            --dest-dir " ++ pathStr wrappers_dir,
      "            --conda-env-dir " ++ conda_prefix,
      "    "]))

/-- Embeds `_get_test_command` (tasks.py, lines 123-136), with the module
global `BUILD_DIR_DEFAULT` passed explicitly. -/
def _get_test_command (win : Bool) (BUILD_DIR_DEFAULT : PyPath)
    (config : String) : String :=
  if win then
    strip_and_join (joinWith "\n" [
      "",
      "            " ++ pathStr BUILD_DIR_DEFAULT ++ "\\test\\" ++ config
        ++ "\\tests",
      "                --success",
      "                --reporter compact",
      "        "])
  else
    strip_and_join (joinWith "\n" [
      "",
      "            " ++ pathStr BUILD_DIR_DEFAULT ++ "/test/tests",
      "                --success",
      "                --reporter compact",
      "        "])

/-- Embeds the `compile` task (tasks.py, lines 158-191): resolve
`BUILD_DIR_DEFAULT`, prepare the build directory, render the configure and
build commands, optionally the wrapper-generation command, and run the
commands joined with `" && "` in one process invocation (the string
returned alongside the final filesystem).

The `gen_wrappers` branch reproduces the call-site bug of line 183: the
source passes a single argument, `build_dir / "wrappers/conda"`, to the
two-parameter function `_get_wrappers_command(c, wrappers_dir)`, so Python
raises `TypeError` at that point and nothing is executed.  (The
`os.chdir(BUILD_DIR_DEFAULT)` performed just before `c.run` on non-Windows
hosts affects only the working directory of the spawned shell, not the
rendered command string, and is not modelled.) -/
def compile (win : Bool) (env : Env) (cwd script_dir : PyPath) (fs : FS)
    (clean : Bool) (config : String) (number_of_jobs : Int)
    (gen_wrappers : Bool) : Except PyErr (FS × String) :=
  match BUILD_DIR_DEFAULT_value win env script_dir with
  | Except.error e => Except.error e
  | Except.ok bdd =>
    match _get_and_prepare_build clean bdd.comps fs with
    | Except.error e => Except.error e
    | Except.ok (_, fs2) =>
      let build_dir := bdd
      let cmake_generator := if win then "Visual Studio 16 2019" else "Ninja"
      let cmake_command := _get_cmake_config_command win script_dir cwd bdd
        build_dir cmake_generator none config
      let build_command := _get_cmake_build_command build_dir config
        number_of_jobs
      if gen_wrappers then
        Except.error PyErr.typeError
      else
        Except.ok (fs2, joinWith " && " [cmake_command, build_command])

/-! ### Predicates used in the claim statements -/

/-- A character list containing no line boundary. -/
def lineClean (l : List Char) : Prop :=
  ∀ c ∈ l, c ≠ '\n' ∧ c ≠ '\r'

instance decLineClean (l : List Char) : Decidable (lineClean l) := by
  unfold lineClean
  infer_instance

/-- A string suitable for substitution into one line of a command template:
non-empty, free of line boundaries, and fixed by `strip` (no leading or
trailing whitespace). -/
def cleanTok (t : String) : Prop :=
  t.data ≠ [] ∧ lineClean t.data ∧ stripL t.data = t.data

instance decCleanTok (t : String) : Decidable (cleanTok t) := by
  unfold cleanTok lineClean
  infer_instance

/-- No two adjacent space characters occur in the list. -/
def noTwoSpaces : List Char → Bool
  | a :: b :: t => (!(decide (a = ' ') && decide (b = ' '))) && noTwoSpaces (b :: t)
  | _ => true

/-- The property claimed of `strip_and_join` output: a single line (the
only whitespace character occurring is the plain space), with tokens
separated by exactly one space (no two adjacent spaces) and no leading or
trailing whitespace. -/
def singleSpacedLine (t : String) : Prop :=
  (∀ c ∈ t.data, c.isWhitespace = true → c = ' ') ∧
  noTwoSpaces t.data = true ∧
  pyStrip t = t

instance decSingleSpacedLine (t : String) : Decidable (singleSpacedLine t) := by
  unfold singleSpacedLine
  infer_instance

/-- The first character, if any, is not whitespace. -/
def headNotWs (l : List Char) : Bool :=
  l.head?.all (fun c => !c.isWhitespace)

/-- The last character, if any, is not whitespace. -/
def lastNotWs (l : List Char) : Bool :=
  l.getLast?.all (fun c => !c.isWhitespace)

/-- `containsSeq n l` holds when `n` occurs as a contiguous run inside
`l` (substring containment on character lists). -/
def containsSeq (n : List Char) : List Char → Bool
  | [] => startsWithL n []
  | c :: t => startsWithL n (c :: t) || containsSeq n t

/-! ### Theorems -/
theorem isLead_refl (p : FsPath) : isLead p p = true := by
  induction p with
  | nil => rfl
  | cons a as ih => simp [isLead, ih]

theorem isLead_antisymm {p q : FsPath} (h1 : isLead p q = true)
    (h2 : isLead q p = true) : p = q := by
  induction p generalizing q with
  | nil => cases q with
    | nil => rfl
    | cons b bs => simp [isLead] at h2
  | cons a as ih =>
    cases q with
    | nil => simp [isLead] at h1
    | cons b bs =>
      simp [isLead] at h1 h2
      exact h1.1 ▸ congrArg (a :: ·) (ih h1.2 h2.2)

theorem mem_properAncestors {q p : FsPath} (h : q ∈ properAncestors p) :
    isLead q p = true ∧ q ≠ p := by
  induction p generalizing q with
  | nil => simp [properAncestors] at h
  | cons a as ih =>
    simp only [properAncestors, List.mem_cons, List.mem_map] at h
    rcases h with h | ⟨r, hr, hq⟩
    · subst h; exact ⟨rfl, by simp⟩
    · subst hq
      rcases ih hr with ⟨h1, h2⟩
      refine ⟨by simp [isLead, h1], by simp [h2]⟩

theorem any_file_false (p : FsPath) (g : FS)
    (hg : ∀ q ∈ properAncestors p, g q ≠ some Node.file) :
    ((properAncestors p).any (fun q => decide (g q = some Node.file))) = false := by
  simp only [List.any_eq_false, decide_eq_true_eq]
  exact hg

/-- Claim C1, as stated, is false: on a path that exists as a non-directory
(here `/a`, a file), `_get_and_prepare_build` with `clean=false` raises
`FileExistsError` on its first call (`mkdir` with `exist_ok=True` still
raises when the existing node is not a directory). -/
theorem C1_counterexample :
    _get_and_prepare_build false ["a"]
      (fun q => if q = ["a"] then some Node.file
                else if q = [] then some Node.dir else none)
      = Except.error PyErr.fsError := by rfl

/-- Claim C1 (amended): for every path such that neither the path itself
nor any of its proper ancestors exists as a non-directory node, calling
`_get_and_prepare_build` with `clean=false` twice in a row raises no
exception, and after each call the path is present as a directory. -/
theorem C1_prepare_no_clean_twice (fs : FS) (p : FsPath)
    (hp : fs p ≠ some Node.file)
    (hanc : ∀ q ∈ properAncestors p, fs q ≠ some Node.file) :
    ∃ fs1 fs2,
      _get_and_prepare_build false p fs = Except.ok (p, fs1) ∧
      fs1 p = some Node.dir ∧
      _get_and_prepare_build false p fs1 = Except.ok (p, fs2) ∧
      fs2 p = some Node.dir := by
  rcases hfp : fs p with _ | node
  · -- the path does not exist yet: the first call creates it
    refine ⟨fun q => if isLead q p then some Node.dir else fs q,
            fun q => if isLead q p then some Node.dir else fs q, ?_, ?_, ?_, ?_⟩
    · simp [_get_and_prepare_build, mkdirParents, any_file_false p fs hanc, hfp]
    · simp [isLead_refl]
    · have hanc1 : ∀ q ∈ properAncestors p,
          (fun r => if isLead r p then some Node.dir else fs r) q ≠ some Node.file := by
        intro q hq
        simp [(mem_properAncestors hq).1]
      simp [_get_and_prepare_build, mkdirParents, any_file_false p _ hanc1,
        isLead_refl]
    · simp [isLead_refl]
  · cases node with
    | file => exact absurd hfp hp
    | dir =>
      -- the directory already exists: both calls are no-ops
      refine ⟨fs, fs, ?_, hfp, ?_, hfp⟩ <;>
        · simp [_get_and_prepare_build, mkdirParents, any_file_false p fs hanc, hfp]

/-- Witness for `C1_prepare_no_clean_twice` at a concrete input: the empty
filesystem and the path `/build`. -/
theorem C1_witness :
    ∃ fs1 fs2,
      _get_and_prepare_build false ["build"] (fun _ => none)
        = Except.ok (["build"], fs1) ∧
      fs1 ["build"] = some Node.dir ∧
      _get_and_prepare_build false ["build"] fs1 = Except.ok (["build"], fs2) ∧
      fs2 ["build"] = some Node.dir :=
  C1_prepare_no_clean_twice (fun _ => none) ["build"] (by decide)
    (by intro q hq; simp)

/-- Claim C4, as stated, is false: with `clean=true` on a path that exists
as a non-directory (here `/a`, a file), the removal step is indeed skipped,
but the subsequent `mkdir` raises instead of creating the directory. -/
theorem C4_counterexample :
    _get_and_prepare_build true ["a"]
      (fun q => if q = ["a"] then some Node.file
                else if q = [] then some Node.dir else none)
      = Except.error PyErr.fsError := by rfl

/-- Claim C4 (amended): if `_get_and_prepare_build` is called with
`clean=true` on a path that exists but is not a directory, the removal step
is silently skipped as a no-op, and the subsequent directory creation then
raises `FileExistsError` (because the path still exists as a
non-directory) rather than succeeding. -/
theorem C4_prepare_clean_on_nondirectory (fs : FS) (p : FsPath)
    (h : fs p = some Node.file) :
    remove_directory fs p = fs ∧
    _get_and_prepare_build true p fs = Except.error PyErr.fsError := by
  have hrm : remove_directory fs p = fs := by
    simp [remove_directory, h]
  refine ⟨hrm, ?_⟩
  by_cases hb : ((properAncestors p).any
      (fun q => decide (fs q = some Node.file))) = true <;>
    simp [_get_and_prepare_build, mkdirParents, hrm, hb, h]

/-- Witness for `C4_prepare_clean_on_nondirectory` at a concrete input: a
filesystem holding one file `/f`. -/
theorem C4_witness :
    remove_directory (fun q => if q = ["f"] then some Node.file else none) ["f"]
        = (fun q => if q = ["f"] then some Node.file else none) ∧
    _get_and_prepare_build true ["f"]
        (fun q => if q = ["f"] then some Node.file else none)
      = Except.error PyErr.fsError :=
  C4_prepare_clean_on_nondirectory
    (fun q => if q = ["f"] then some Node.file else none) ["f"] (by decide)

/-- Claim C5: calling `_get_and_prepare_build` with `clean=true` on an
existing non-empty directory (in a filesystem whose ancestors of the path
are well-formed, i.e. not files) leaves the path as an empty,
freshly-created directory: the path is a directory afterwards and nothing
exists strictly below it. -/
theorem C5_prepare_clean_wipes (fs : FS) (p : FsPath)
    (hdir : fs p = some Node.dir)
    (hanc : ∀ q ∈ properAncestors p, fs q ≠ some Node.file)
    (hne : ∃ q, isLead p q = true ∧ q ≠ p ∧ fs q ≠ none) :
    ∃ fs', _get_and_prepare_build true p fs = Except.ok (p, fs') ∧
      fs' p = some Node.dir ∧
      ∀ q, isLead p q = true → q ≠ p → fs' q = none := by
  clear hne
  have hrm : remove_directory fs p =
      fun q => if isLead p q then none else fs q := by
    simp [remove_directory, hdir]
  have hanc1 : ∀ q ∈ properAncestors p,
      (fun r => if isLead p r then none else fs r) q ≠ some Node.file := by
    intro q hq
    rcases mem_properAncestors hq with ⟨h1, h2⟩
    have : isLead p q = false := by
      cases h3 : isLead p q with
      | false => rfl
      | true => exact absurd (isLead_antisymm h3 h1) (Ne.symm h2)
    simp [this]
    exact hanc q hq
  have hmid : (if isLead p p then none else fs p) = (none : Option Node) := by
    simp [isLead_refl]
  have ha : ((properAncestors p).any
      (fun q => decide ((if isLead p q = true then none else fs q)
        = some Node.file))) = false :=
    any_file_false p _ hanc1
  have hmk : mkdirParents (fun q => if isLead p q = true then none else fs q)
      p false
      = Except.ok (fun q => if isLead q p = true then some Node.dir
                   else if isLead p q = true then none else fs q) := by
    unfold mkdirParents
    beta_reduce
    rw [ha, hmid]
    simp
  refine ⟨fun q => if isLead q p then some Node.dir
                   else if isLead p q then none else fs q, ?_, ?_, ?_⟩
  · simp [_get_and_prepare_build, hrm, hmk]
  · simp [isLead_refl]
  · intro q hq hqp
    have : isLead q p = false := by
      cases h3 : isLead q p with
      | false => rfl
      | true => exact absurd (isLead_antisymm h3 hq) hqp
    simp [this, hq]

/-- Witness for `C5_prepare_clean_wipes` at a concrete input: the directory
`/b` containing one file `/b/x`. -/
theorem C5_witness :
    ∃ fs', _get_and_prepare_build true ["b"]
        (fun q => if q = ["b"] then some Node.dir
                  else if q = ["b", "x"] then some Node.file
                  else if q = [] then some Node.dir else none)
      = Except.ok (["b"], fs') ∧
      fs' ["b"] = some Node.dir ∧
      ∀ q, isLead ["b"] q = true → q ≠ ["b"] → fs' q = none :=
  C5_prepare_clean_wipes _ ["b"] (by decide)
    (by intro q hq; fin_cases hq <;> decide)
    ⟨["b", "x"], by decide, by decide, by decide⟩

/-- Claim C10: on the non-Windows platform, `_get_test_command` ignores its
configuration-name parameter: any two configuration names produce the
identical command string. -/
theorem C10_test_command_ignores_config (bdd : PyPath) (config1 config2 : String) :
    _get_test_command false bdd config1 = _get_test_command false bdd config2 := rfl

/-- Helper for claim C9: replacing `":"` by the empty string removes
exactly the colon characters. -/
theorem pyReplaceAux_colon (l : List Char) :
    pyReplaceAux [':'] [] 0 l = l.filter (fun c => decide (c ≠ ':')) := by
  induction l with
  | nil => rfl
  | cons c cs ih =>
    by_cases hc : c = ':'
    · simp [pyReplaceAux, startsWithL, hc, ih]
    · simp [pyReplaceAux, startsWithL, hc, ih, Ne.symm hc]

/-- Claim C9: on non-Windows hosts the default build directory is built
from the value of `AUTODIFF_BUILD_DIR` with every `':'` character removed
(so whenever the value contains a colon, the string turned into the path is
not the verbatim value). -/
theorem C9_build_dir_default_strips_colons (env : Env) (script_dir : PyPath)
    (v : String) (h : env "AUTODIFF_BUILD_DIR" = some v) :
    BUILD_DIR_DEFAULT_value false env script_dir
      = Except.ok (pathFromStr
          (String.mk (v.data.filter (fun c => decide (c ≠ ':'))))) ∧
    (':' ∈ v.data → pyReplace v ":" "" ≠ v) := by
  have hrepl : pyReplace v ":" ""
      = String.mk (v.data.filter (fun c => decide (c ≠ ':'))) := by
    unfold pyReplace
    rw [show (":" : String).data = [':'] from rfl,
      show ("" : String).data = [] from rfl, pyReplaceAux_colon]
  constructor
  · simp [BUILD_DIR_DEFAULT_value, h, hrepl]
  · intro hcolon heq
    rw [hrepl] at heq
    have hdata : v.data.filter (fun c => decide (c ≠ ':')) = v.data :=
      congrArg String.data heq
    have : (':' : Char) ∈ v.data.filter (fun c => decide (c ≠ ':')) := by
      rw [hdata]
      exact hcolon
    simp at this

/-- Witness for `C9_build_dir_default_strips_colons` at a concrete input:
the variable value `/tmp:/x`. -/
theorem C9_witness :
    BUILD_DIR_DEFAULT_value false
        (fun k => if k = "AUTODIFF_BUILD_DIR" then some "/tmp:/x" else none)
        ⟨true, ["repo"]⟩
      = Except.ok (pathFromStr
          (String.mk (("/tmp:/x" : String).data.filter
            (fun c => decide (c ≠ ':'))))) ∧
    (':' ∈ ("/tmp:/x" : String).data →
      pyReplace "/tmp:/x" ":" "" ≠ "/tmp:/x") :=
  C9_build_dir_default_strips_colons _ ⟨true, ["repo"]⟩ "/tmp:/x" (by decide)

/-- Claim C2 (the code is at fault): whenever the `compile` task gets past
directory preparation with the wrapper-generation flag set, it raises
`TypeError` (tasks.py line 183 passes one argument to the two-parameter
`_get_wrappers_command`) instead of executing the three commands joined by
`&&`. -/
theorem C2_compile_gen_wrappers_raises (win : Bool) (env : Env)
    (cwd script_dir : PyPath) (fs : FS) (clean : Bool) (config : String)
    (n : Int) (bdd : PyPath) (pr : FsPath × FS)
    (h1 : BUILD_DIR_DEFAULT_value win env script_dir = Except.ok bdd)
    (h2 : _get_and_prepare_build clean bdd.comps fs = Except.ok pr) :
    compile win env cwd script_dir fs clean config n true
      = Except.error PyErr.typeError := by
  simp [compile, h1, h2]

/-- Witness for `C2_compile_gen_wrappers_raises` at a concrete input. -/
theorem C2_witness :
    compile false
        (fun k => if k = "AUTODIFF_BUILD_DIR" then some "/b"
                  else if k = "CONDA_PREFIX" then some "/conda" else none)
        ⟨true, ["work"]⟩ ⟨true, ["repo"]⟩ (fun _ => none)
        false "Release" (-1) true
      = Except.error PyErr.typeError :=
  C2_compile_gen_wrappers_raises false _ ⟨true, ["work"]⟩ ⟨true, ["repo"]⟩
    (fun _ => none) false "Release" (-1) ⟨true, ["b"]⟩
    (["b"], fun q => if isLead q ["b"] then some Node.dir else none)
    (by rfl) (by rfl)

/-- Claim C3, as stated, is false: `_get_wrappers_command` reads the
`CONDA_PREFIX` environment variable, so two calls with identical explicit
parameters on the same platform but different environments return
different results. -/
theorem C3_counterexample :
    ¬ ∀ (env1 env2 : Env) (wd : PyPath),
        _get_wrappers_command false env1 wd
          = _get_wrappers_command false env2 wd := by
  intro h
  have hc := h (fun k => if k = "CONDA_PREFIX" then some "/envA" else none)
    (fun k => if k = "CONDA_PREFIX" then some "/envB" else none) ⟨false, ["w"]⟩
  exact absurd (congrArg Except.toOption hc) (by decide)

/-- Claim C3 (amended): each command builder is deterministic in its
explicit parameters, the platform discriminator, and the ambient process
inputs it actually reads; in particular the wrapper-generation builder
depends on the environment only through `CONDA_PREFIX`: two environments
agreeing on that variable yield identical command strings, for every
destination directory and platform. -/
theorem C3_wrappers_env_det (win : Bool) (env1 env2 : Env) (wd : PyPath)
    (h : env1 "CONDA_PREFIX" = env2 "CONDA_PREFIX") :
    _get_wrappers_command win env1 wd = _get_wrappers_command win env2 wd := by
  unfold _get_wrappers_command
  rw [h]

/-- Witness for `C3_wrappers_env_det`: two concrete environments that agree
on `CONDA_PREFIX` and differ elsewhere. -/
theorem C3_witness :
    _get_wrappers_command false
        (fun k => if k = "OTHER" then some "x"
                  else if k = "CONDA_PREFIX" then some "/c" else none)
        ⟨false, ["w"]⟩
      = _get_wrappers_command false
        (fun k => if k = "CONDA_PREFIX" then some "/c" else none)
        ⟨false, ["w"]⟩ :=
  C3_wrappers_env_det false _ _ ⟨false, ["w"]⟩ (by decide)

/-- Claim C8: on the non-Windows platform, the configure-step builder with
build directory `/tmp/b`, generator `Ninja`, no architecture and config
`Release` (here with script directory `/repo`, working directory `/work`)
produces a command containing `-G "Ninja"` and `-DCMAKE_BUILD_TYPE=Release`
and no `-A` flag. -/
theorem C8_config_example :
    _get_cmake_config_command false ⟨true, ["repo"]⟩ ⟨true, ["work"]⟩
        ⟨true, ["bdd"]⟩ ⟨true, ["tmp", "b"]⟩ "Ninja" none "Release"
      = "cmake -G \"Ninja\" -DCMAKE_BUILD_TYPE=Release -DCMAKE_INSTALL_PREFIX=\"../tmp/b\" \"../../repo\"" ∧
    containsSeq ("-G \"Ninja\"").data
      (_get_cmake_config_command false ⟨true, ["repo"]⟩ ⟨true, ["work"]⟩
        ⟨true, ["bdd"]⟩ ⟨true, ["tmp", "b"]⟩ "Ninja" none "Release").data = true ∧
    containsSeq ("-DCMAKE_BUILD_TYPE=Release").data
      (_get_cmake_config_command false ⟨true, ["repo"]⟩ ⟨true, ["work"]⟩
        ⟨true, ["bdd"]⟩ ⟨true, ["tmp", "b"]⟩ "Ninja" none "Release").data = true ∧
    containsSeq ("-A").data
      (_get_cmake_config_command false ⟨true, ["repo"]⟩ ⟨true, ["work"]⟩
        ⟨true, ["bdd"]⟩ ⟨true, ["tmp", "b"]⟩ "Ninja" none "Release").data = false := by
  decide

/-! ### Lemmas about `splitlines` -/

theorem splitlinesAux_cons_nl (cs cur : List Char) :
    splitlinesAux ('\n' :: cs) cur
      = String.mk cur.reverse :: splitlinesAux cs [] := rfl

theorem splitlinesAux_cons_other (c : Char) (cs cur : List Char)
    (h1 : c ≠ '\n') (h2 : c ≠ '\r') :
    splitlinesAux (c :: cs) cur = splitlinesAux cs (c :: cur) := by
  conv_lhs => rw [splitlinesAux.eq_def]
  split <;> simp_all

theorem splitlinesAux_clean_append (a : List Char) (ha : lineClean a)
    (b cur : List Char) :
    splitlinesAux (a ++ '\n' :: b) cur
      = String.mk (cur.reverse ++ a) :: splitlinesAux b [] := by
  induction a generalizing cur with
  | nil => simpa using splitlinesAux_cons_nl b cur
  | cons x xs ih =>
    have hx := ha x (List.mem_cons_self x xs)
    have hxs : lineClean xs := fun c hc => ha c (List.mem_cons_of_mem x hc)
    rw [List.cons_append, splitlinesAux_cons_other x _ cur hx.1 hx.2, ih hxs]
    simp

theorem splitlinesAux_clean_all (a : List Char) (ha : lineClean a) :
    ∀ cur : List Char, cur.reverse ++ a ≠ [] →
      splitlinesAux a cur = [String.mk (cur.reverse ++ a)] := by
  induction a with
  | nil =>
    intro cur hne
    have hc : cur ≠ [] := by simpa using hne
    simp [splitlinesAux, hc]
  | cons x xs ih =>
    intro cur _
    have hx := ha x (List.mem_cons_self x xs)
    have hxs : lineClean xs := fun c hc => ha c (List.mem_cons_of_mem x hc)
    rw [splitlinesAux_cons_other x xs cur hx.1 hx.2, ih hxs (x :: cur) (by simp)]
    simp

theorem splitlines_joinWith (lines : List String)
    (hclean : ∀ l ∈ lines, lineClean l.data)
    (hlast : lines.getLast? ≠ some "") :
    splitlines (joinWith "\n" lines) = lines := by
  induction lines with
  | nil => rfl
  | cons x rest ih =>
    cases rest with
    | nil =>
      have hx : x ≠ "" := by
        intro h
        exact hlast (by simp [h])
      have hxd : x.data ≠ [] := by
        intro h
        exact hx (String.ext h)
      unfold splitlines
      rw [show joinWith "\n" [x] = x from rfl,
        splitlinesAux_clean_all x.data (hclean x (by simp)) [] (by simpa using hxd)]
      simp
    | cons y rest2 =>
      have hdata : (joinWith "\n" (x :: y :: rest2)).data
          = x.data ++ '\n' :: (joinWith "\n" (y :: rest2)).data := by
        rw [show joinWith "\n" (x :: y :: rest2)
          = x ++ "\n" ++ joinWith "\n" (y :: rest2) from rfl]
        simp [String.data_append]
      unfold splitlines
      rw [hdata,
        splitlinesAux_clean_append x.data (hclean x (by simp)) _ []]
      simp only [List.reverse_nil, List.nil_append]
      have htail : splitlines (joinWith "\n" (y :: rest2)) = y :: rest2 :=
        ih (fun l hl => hclean l (List.mem_cons_of_mem x hl))
          (by simpa using hlast)
      rw [show String.mk x.data = x from rfl]
      exact congrArg (x :: ·) htail

/-! ### Lemmas about `strip` -/

theorem dropWhile_ws_append (sp l : List Char)
    (hsp : ∀ c ∈ sp, c.isWhitespace = true) :
    List.dropWhile Char.isWhitespace (sp ++ l)
      = List.dropWhile Char.isWhitespace l := by
  induction sp with
  | nil => rfl
  | cons c cs ih =>
    rw [List.cons_append, List.dropWhile_cons]
    simp only [hsp c (List.mem_cons_self c cs), if_true]
    exact ih (fun d hd => hsp d (List.mem_cons_of_mem c hd))

theorem stripL_ws_append (sp l : List Char)
    (hsp : ∀ c ∈ sp, c.isWhitespace = true) :
    stripL (sp ++ l) = stripL l := by
  unfold stripL
  rw [dropWhile_ws_append sp l hsp]

theorem headNotWs_iff (l : List Char) :
    headNotWs l = true
      ↔ ∀ hl : 0 < l.length, ¬(l.get ⟨0, hl⟩).isWhitespace = true := by
  cases l with
  | nil => simp [headNotWs]
  | cons a t => simp [headNotWs]

theorem lastNotWs_iff (l : List Char) :
    lastNotWs l = true
      ↔ ∀ hl : l ≠ [], ¬(l.getLast hl).isWhitespace = true := by
  cases l with
  | nil => simp [lastNotWs]
  | cons a t =>
    rw [lastNotWs, List.getLast?_eq_getLast (a :: t) (by simp)]
    simp

theorem stripL_eq_self_iff (l : List Char) :
    stripL l = l ↔ (headNotWs l = true ∧ lastNotWs l = true) := by
  constructor
  · intro h
    have hp := List.rdropWhile_prefix Char.isWhitespace
      (List.dropWhile Char.isWhitespace l)
    have hs := List.dropWhile_suffix (l := l) Char.isWhitespace
    have hl1 : (stripL l).length = l.length := by rw [h]
    have hl2 := hp.sublist.length_le
    have hl3 := hs.sublist.length_le
    have e1 : List.dropWhile Char.isWhitespace l = l :=
      hs.sublist.eq_of_length (by unfold stripL at hl1; omega)
    have e2 : List.rdropWhile Char.isWhitespace l = l := by
      have h2 := h
      unfold stripL at h2
      rw [e1] at h2
      exact h2
    exact ⟨(headNotWs_iff l).mpr (List.dropWhile_eq_self_iff.mp e1),
           (lastNotWs_iff l).mpr (List.rdropWhile_eq_self_iff.mp e2)⟩
  · rintro ⟨h1, h2⟩
    have e1 : List.dropWhile Char.isWhitespace l = l :=
      List.dropWhile_eq_self_iff.mpr ((headNotWs_iff l).mp h1)
    unfold stripL
    rw [e1]
    exact List.rdropWhile_eq_self_iff.mpr ((lastNotWs_iff l).mp h2)

theorem headNotWs_append (a b : List Char) (ha : a ≠ []) :
    headNotWs (a ++ b) = headNotWs a := by
  cases a with
  | nil => exact absurd rfl ha
  | cons x t => simp [headNotWs]

theorem lastNotWs_append (a b : List Char) (hb : b ≠ []) :
    lastNotWs (a ++ b) = lastNotWs b := by
  unfold lastNotWs
  rw [List.getLast?_append_of_ne_nil a hb]

/-! ### Lemmas for rendering templates -/

theorem lineClean_append (a b : List Char) (ha : lineClean a)
    (hb : lineClean b) : lineClean (a ++ b) := by
  intro c hc
  rcases List.mem_append.mp hc with h | h
  · exact ha c h
  · exact hb c h

theorem append_ne_empty_left (a b : String) (ha : a.data ≠ []) :
    a ++ b ≠ "" := by
  intro h
  have hd := congrArg String.data h
  rw [String.data_append] at hd
  simp at hd
  exact ha hd.1

theorem strip_and_join_lines (lines : List String)
    (h : ∀ l ∈ lines, lineClean l.data)
    (hlast : lines.getLast? ≠ some "") :
    strip_and_join (joinWith "\n" lines)
      = joinWith " " ((lines.map pyStrip).filter (fun l => decide (l ≠ ""))) := by
  unfold strip_and_join
  rw [splitlines_joinWith lines h hlast]

theorem pyStrip_indent_append (ind core : String)
    (hind : ∀ c ∈ ind.data, c.isWhitespace = true)
    (hcore : stripL core.data = core.data) :
    pyStrip (ind ++ core) = core := by
  unfold pyStrip
  rw [String.data_append, stripL_ws_append ind.data core.data hind, hcore]

theorem stripL_append_self (pre t : String) (hpre : pre.data ≠ [])
    (h1 : headNotWs pre.data = true) (ht : t.data ≠ [])
    (h2 : lastNotWs t.data = true) :
    stripL (pre ++ t).data = (pre ++ t).data := by
  rw [String.data_append]
  apply (stripL_eq_self_iff _).mpr
  constructor
  · rw [headNotWs_append _ _ hpre]
    exact h1
  · rw [lastNotWs_append _ _ ht]
    exact h2

theorem pyStrip_line_hole (ind pre t : String)
    (hind : ∀ c ∈ ind.data, c.isWhitespace = true)
    (hpre : pre.data ≠ []) (h1 : headNotWs pre.data = true)
    (ht : cleanTok t) :
    pyStrip (ind ++ (pre ++ t)) = pre ++ t :=
  pyStrip_indent_append ind (pre ++ t) hind
    (stripL_append_self pre t hpre h1 ht.1
      ((stripL_eq_self_iff t.data).mp ht.2.2).2)

/-! ### The decimal rendering of a positive job count is a clean token -/

theorem digitChar_isDigit : ∀ k < 10, (Nat.digitChar k).isDigit = true := by
  decide

theorem toDigitsCore_digits (f : Nat) :
    ∀ (n : Nat) (acc : List Char), (∀ c ∈ acc, c.isDigit = true) →
      ∀ c ∈ Nat.toDigitsCore 10 f n acc, c.isDigit = true := by
  induction f with
  | zero =>
    intro n acc hacc c hc
    simp only [Nat.toDigitsCore] at hc
    exact hacc c hc
  | succ f ih =>
    intro n acc hacc c hc
    have hd : (Nat.digitChar (n % 10)).isDigit = true :=
      digitChar_isDigit (n % 10) (Nat.mod_lt n (by omega))
    simp only [Nat.toDigitsCore] at hc
    by_cases hnb : n / 10 = 0
    · simp only [hnb, if_true] at hc
      rcases List.mem_cons.mp hc with h | h
      · exact h ▸ hd
      · exact hacc c h
    · simp only [hnb, if_false] at hc
      refine ih (n / 10) (Nat.digitChar (n % 10) :: acc) ?_ c hc
      intro d hdm
      rcases List.mem_cons.mp hdm with h | h
      · exact h ▸ hd
      · exact hacc d h

theorem toDigitsCore_ne_nil_of_acc (f : Nat) :
    ∀ (n : Nat) (acc : List Char), acc ≠ [] →
      Nat.toDigitsCore 10 f n acc ≠ [] := by
  induction f with
  | zero =>
    intro n acc h
    simpa [Nat.toDigitsCore] using h
  | succ f ih =>
    intro n acc h
    simp only [Nat.toDigitsCore]
    by_cases hnb : n / 10 = 0
    · simp [hnb]
    · simp only [hnb, if_false]
      exact ih _ _ (by simp)

theorem toDigits_ne_nil (n : Nat) : Nat.toDigits 10 n ≠ [] := by
  unfold Nat.toDigits
  simp only [Nat.toDigitsCore]
  by_cases hnb : n / 10 = 0
  · simp [hnb]
  · simp only [hnb, if_false]
    exact toDigitsCore_ne_nil_of_acc _ _ _ (by simp)

theorem natRepr_data_digits (m : Nat) :
    (Nat.repr m).data ≠ [] ∧ ∀ c ∈ (Nat.repr m).data, c.isDigit = true := by
  unfold Nat.repr
  refine ⟨toDigits_ne_nil m, ?_⟩
  intro c hc
  exact toDigitsCore_digits (m + 1) m [] (by simp) c hc

theorem digit_char_facts (c : Char) (h : c.isDigit = true) :
    c.isWhitespace = false ∧ c ≠ '\n' ∧ c ≠ '\r' := by
  simp only [Char.isDigit, Bool.and_eq_true, decide_eq_true_eq] at h
  refine ⟨?_, ?_, ?_⟩
  · simp only [Char.isWhitespace, Bool.or_eq_false_iff, decide_eq_false_iff_not]
    refine ⟨⟨⟨?_, ?_⟩, ?_⟩, ?_⟩ <;>
      · rintro rfl
        revert h
        decide
  · rintro rfl
    revert h
    decide
  · rintro rfl
    revert h
    decide

theorem toString_pos_int_cleanTok (n : Int) (h : 1 ≤ n) :
    cleanTok (toString n) := by
  cases n with
  | ofNat m =>
    have hm := natRepr_data_digits m
    have hall : ∀ c ∈ (Nat.repr m).data, c.isDigit = true := hm.2
    have hdata : (toString (Int.ofNat m)).data = (Nat.repr m).data := rfl
    refine ⟨by rw [hdata]; exact hm.1, ?_, ?_⟩
    · intro c hc
      have := digit_char_facts c (hall c (by rw [hdata] at hc; exact hc))
      exact ⟨this.2.1, this.2.2⟩
    · rw [hdata]
      apply (stripL_eq_self_iff _).mpr
      constructor
      · rcases hd : (Nat.repr m).data with _ | ⟨a, t⟩
        · simp [headNotWs]
        · have : a.isDigit = true := hall a (by rw [hd]; simp)
          simp [headNotWs, (digit_char_facts a this).1]
      · rcases hl : (Nat.repr m).data.getLast? with _ | a
        · simp [lastNotWs, hl]
        · have ham : a ∈ (Nat.repr m).data := by
            rcases List.mem_getLast?_eq_getLast (l := (Nat.repr m).data)
              (x := a) (by rw [hl]; rfl) with ⟨hne, heq⟩
            exact heq ▸ List.getLast_mem hne
          simp [lastNotWs, hl, (digit_char_facts a (hall a ham)).1]
  | negSucc m =>
    have := Int.negSucc_lt_zero m
    omega

theorem cleanTok_append_tok (pre t : String) (hpre : pre.data ≠ [])
    (h1 : headNotWs pre.data = true) (hlc : lineClean pre.data)
    (ht : cleanTok t) : cleanTok (pre ++ t) := by
  refine ⟨?_, ?_, stripL_append_self pre t hpre h1 ht.1
    ((stripL_eq_self_iff t.data).mp ht.2.2).2⟩
  · rw [String.data_append]
    simp [hpre]
  · rw [String.data_append]
    exact lineClean_append _ _ hlc ht.2.1

/-- Claim C7: `_get_cmake_build_command` omits the parallelism flag
entirely when the job count is less than 1, and includes `-j` with exactly
that value when the job count is at least 1 (stated for build-directory and
configuration strings that are sane template tokens: non-empty, no line
boundaries, no leading or trailing whitespace). -/
theorem C7_build_command_jobs (build_dir : PyPath) (config : String) (n : Int)
    (hb : cleanTok (pathStr build_dir)) (hc : cleanTok config) :
    (n < 1 → _get_cmake_build_command build_dir config n
        = "cmake --build " ++ pathStr build_dir
          ++ " --target install --config " ++ config ++ " --") ∧
    (1 ≤ n → _get_cmake_build_command build_dir config n
        = "cmake --build " ++ pathStr build_dir
          ++ " --target install --config " ++ config ++ " -- -j "
          ++ toString n) := by
  have p3 : pyStrip ("            --build " ++ pathStr build_dir)
      = "--build " ++ pathStr build_dir := by
    rw [show ("            --build " : String) = "            " ++ "--build "
      from rfl, String.append_assoc]
    exact pyStrip_line_hole "            " "--build " (pathStr build_dir)
      (by decide) (by decide) (by decide) hb
  have p5 : pyStrip ("            --config " ++ config)
      = "--config " ++ config := by
    rw [show ("            --config " : String) = "            " ++ "--config "
      from rfl, String.append_assoc]
    exact pyStrip_line_hole "            " "--config " config
      (by decide) (by decide) (by decide) hc
  have f3 : decide (("--build " ++ pathStr build_dir) ≠ "") = true :=
    decide_eq_true (append_ne_empty_left _ _ (by decide))
  have f5 : decide (("--config " ++ config) ≠ "") = true :=
    decide_eq_true (append_ne_empty_left _ _ (by decide))
  constructor
  · intro hn
    unfold _get_cmake_build_command
    rw [if_neg (by omega)]
    have hclean : ∀ l ∈ ["", "        cmake",
        "            --build " ++ pathStr build_dir,
        "            --target install", "            --config " ++ config,
        "            --", "                " ++ "", "    "],
        lineClean l.data := by
      intro l hl
      simp only [List.mem_cons, List.not_mem_nil, or_false] at hl
      rcases hl with h | h | h | h | h | h | h | h <;> subst h
      · decide
      · decide
      · rw [String.data_append]
        exact lineClean_append _ _ (by decide) hb.2.1
      · decide
      · rw [String.data_append]
        exact lineClean_append _ _ (by decide) hc.2.1
      · decide
      · decide
      · decide
    have hlast : (["", "        cmake",
        "            --build " ++ pathStr build_dir,
        "            --target install", "            --config " ++ config,
        "            --", "                " ++ "", "    "] : List String).getLast?
        ≠ some "" := by
      simp
    rw [strip_and_join_lines _ hclean hlast]
    simp only [List.map_cons, List.map_nil, p3, p5]
    rw [show pyStrip "" = "" from rfl,
      show pyStrip "        cmake" = "cmake" from rfl,
      show pyStrip "            --target install" = "--target install" from rfl,
      show pyStrip "            --" = "--" from rfl,
      show pyStrip ("                " ++ "") = "" from rfl,
      show pyStrip "    " = "" from rfl]
    simp only [List.filter_cons, List.filter_nil, f3, f5]
    norm_num
    simp only [joinWith]
    rw [show ("cmake --build " : String) = "cmake" ++ " " ++ "--build " from rfl,
      show (" --target install --config " : String)
        = " " ++ "--target install" ++ " " ++ "--config " from rfl,
      show (" --" : String) = " " ++ "--" from rfl]
    simp only [String.append_assoc]
  · intro hn
    have hFtok : cleanTok ("-j " ++ toString n) :=
      cleanTok_append_tok "-j " (toString n) (by decide) (by decide) (by decide)
        (toString_pos_int_cleanTok n hn)
    have p7 : pyStrip ("                " ++ ("-j " ++ toString n))
        = "-j " ++ toString n :=
      pyStrip_line_hole "                " "-j " (toString n)
        (by decide) (by decide) (by decide) (toString_pos_int_cleanTok n hn)
    have f7 : decide (("-j " ++ toString n) ≠ "") = true :=
      decide_eq_true (append_ne_empty_left _ _ (by decide))
    unfold _get_cmake_build_command
    rw [if_pos hn]
    have hclean : ∀ l ∈ ["", "        cmake",
        "            --build " ++ pathStr build_dir,
        "            --target install", "            --config " ++ config,
        "            --", "                " ++ ("-j " ++ toString n), "    "],
        lineClean l.data := by
      intro l hl
      simp only [List.mem_cons, List.not_mem_nil, or_false] at hl
      rcases hl with h | h | h | h | h | h | h | h <;> subst h
      · decide
      · decide
      · rw [String.data_append]
        exact lineClean_append _ _ (by decide) hb.2.1
      · decide
      · rw [String.data_append]
        exact lineClean_append _ _ (by decide) hc.2.1
      · decide
      · rw [String.data_append]
        exact lineClean_append _ _ (by decide) hFtok.2.1
      · decide
    have hlast : (["", "        cmake",
        "            --build " ++ pathStr build_dir,
        "            --target install", "            --config " ++ config,
        "            --", "                " ++ ("-j " ++ toString n),
        "    "] : List String).getLast? ≠ some "" := by
      simp
    rw [strip_and_join_lines _ hclean hlast]
    simp only [List.map_cons, List.map_nil, p3, p5, p7]
    rw [show pyStrip "" = "" from rfl,
      show pyStrip "        cmake" = "cmake" from rfl,
      show pyStrip "            --target install" = "--target install" from rfl,
      show pyStrip "            --" = "--" from rfl,
      show pyStrip "    " = "" from rfl]
    simp only [List.filter_cons, List.filter_nil, f3, f5, f7]
    norm_num
    simp only [joinWith]
    rw [show ("cmake --build " : String) = "cmake" ++ " " ++ "--build " from rfl,
      show (" --target install --config " : String)
        = " " ++ "--target install" ++ " " ++ "--config " from rfl,
      show (" -- -j " : String) = " " ++ "--" ++ " " ++ "-j " from rfl]
    simp only [String.append_assoc]

/-- Witness for `C7_build_command_jobs` at a concrete input: job count 4,
build directory `/tmp/b`, configuration `Release`. -/
theorem C7_witness :
    _get_cmake_build_command ⟨true, ["tmp", "b"]⟩ "Release" 4
      = "cmake --build /tmp/b --target install --config Release -- -j 4" := by
  rw [(C7_build_command_jobs ⟨true, ["tmp", "b"]⟩ "Release" 4
    (by decide) (by decide)).2 (by decide)]
  rfl

/-! ### Lemmas about single-spaced joining -/

theorem noTwoSpaces_cons_cons (a b : Char) (t : List Char) :
    noTwoSpaces (a :: b :: t)
      = ((!(decide (a = ' ') && decide (b = ' '))) && noTwoSpaces (b :: t)) :=
  rfl

theorem noTwoSpaces_space_cons (b : List Char) (hb : noTwoSpaces b = true)
    (hh : ∀ c, b.head? = some c → c ≠ ' ') :
    noTwoSpaces (' ' :: b) = true := by
  cases b with
  | nil => rfl
  | cons x t =>
    have hx : x ≠ ' ' := hh x rfl
    simp [noTwoSpaces_cons_cons, hx, hb]

theorem noTwoSpaces_append (a : List Char) :
    ∀ b : List Char, noTwoSpaces a = true → noTwoSpaces b = true →
      (∀ c, a.getLast? = some c → c ≠ ' ') →
      (∀ c, b.head? = some c → c ≠ ' ') →
      noTwoSpaces (a ++ ' ' :: b) = true := by
  induction a with
  | nil =>
    intro b _ hb _ hh
    exact noTwoSpaces_space_cons b hb hh
  | cons u us ih =>
    intro b ha hb hlast hh
    cases us with
    | nil =>
      have hu : u ≠ ' ' := hlast u rfl
      rw [show ([u] ++ ' ' :: b) = u :: ' ' :: b from rfl, noTwoSpaces_cons_cons]
      simp [hu, noTwoSpaces_space_cons b hb hh]
    | cons v vs =>
      rw [noTwoSpaces_cons_cons] at ha
      simp only [Bool.and_eq_true] at ha
      rcases ha with ⟨hp, ha2⟩
      have hrec := ih b ha2 hb
        (fun c hc => hlast c (by rw [List.getLast?_cons_cons]; exact hc)) hh
      rw [show ((u :: v :: vs) ++ ' ' :: b) = u :: v :: (vs ++ ' ' :: b)
        from rfl, noTwoSpaces_cons_cons]
      rw [show (v :: (vs ++ ' ' :: b)) = ((v :: vs) ++ ' ' :: b) from rfl,
        hrec, hp]
      rfl

theorem joinWith_space_data (x y : String) (rest : List String) :
    (joinWith " " (x :: y :: rest)).data
      = x.data ++ ' ' :: (joinWith " " (y :: rest)).data := by
  rw [show joinWith " " (x :: y :: rest)
    = x ++ " " ++ joinWith " " (y :: rest) from rfl]
  simp [String.data_append]

theorem joinWith_head (x : String) (rest : List String) :
    ∃ r : List Char, (joinWith " " (x :: rest)).data = x.data ++ r := by
  cases rest with
  | nil => exact ⟨[], by simp [joinWith]⟩
  | cons y t =>
    exact ⟨' ' :: (joinWith " " (y :: t)).data, joinWith_space_data x y t⟩

theorem headNotWs_no_space (l : List Char) (h : headNotWs l = true) :
    ∀ c, l.head? = some c → c ≠ ' ' := by
  intro c hc heq
  subst heq
  unfold headNotWs at h
  rw [hc] at h
  exact absurd h (by decide)

theorem lastNotWs_no_space (l : List Char) (h : lastNotWs l = true) :
    ∀ c, l.getLast? = some c → c ≠ ' ' := by
  intro c hc heq
  subst heq
  unfold lastNotWs at h
  rw [hc] at h
  exact absurd h (by decide)

theorem pyStrip_eq_self_data (t : String) (h : pyStrip t = t) :
    stripL t.data = t.data :=
  congrArg String.data h

theorem joinWith_single_spaced (L : List String)
    (h : ∀ x ∈ L, x ≠ "" ∧ singleSpacedLine x) :
    singleSpacedLine (joinWith " " L) := by
  induction L with
  | nil => decide
  | cons x rest ih =>
    cases rest with
    | nil => exact (h x (by simp)).2
    | cons y rest2 =>
      rcases h x (by simp) with ⟨hxne, hx1, hx2, hx3⟩
      have hJ := ih (fun z hz => h z (List.mem_cons_of_mem x hz))
      rcases hJ with ⟨hJ1, hJ2, hJ3⟩
      have hyne : y ≠ "" := (h y (by simp)).1
      obtain ⟨r, hr⟩ := joinWith_head y rest2
      have hyd : y.data ≠ [] := fun hh => hyne (String.ext hh)
      have hJne : (joinWith " " (y :: rest2)).data ≠ [] := by
        rw [hr]
        intro hnil
        exact hyd (List.append_eq_nil.mp hnil).1
      have hxd : x.data ≠ [] := fun hh => hxne (String.ext hh)
      have hdata := joinWith_space_data x y rest2
      have hxstr := (stripL_eq_self_iff x.data).mp (pyStrip_eq_self_data x hx3)
      have hJstr := (stripL_eq_self_iff _).mp (pyStrip_eq_self_data _ hJ3)
      refine ⟨?_, ?_, ?_⟩
      · intro c hc hws
        rw [hdata] at hc
        rcases List.mem_append.mp hc with h1 | h1
        · exact hx1 c h1 hws
        · rcases List.mem_cons.mp h1 with h2 | h2
          · exact h2
          · exact hJ1 c h2 hws
      · rw [hdata]
        apply noTwoSpaces_append _ _ hx2 hJ2
        · exact lastNotWs_no_space _ hxstr.2
        · have hJhead : headNotWs (joinWith " " (y :: rest2)).data = true := by
            rw [hr, headNotWs_append _ _ hyd]
            exact ((stripL_eq_self_iff y.data).mp (pyStrip_eq_self_data y
              (h y (by simp)).2.2.2)).1
          exact headNotWs_no_space _ hJhead
      · have hfix : stripL (joinWith " " (x :: y :: rest2)).data
            = (joinWith " " (x :: y :: rest2)).data := by
          apply (stripL_eq_self_iff _).mpr
          constructor
          · rw [hdata, headNotWs_append _ _ hxd]
            exact hxstr.1
          · rw [hdata, lastNotWs_append _ _ (by simp)]
            cases hJd : (joinWith " " (y :: rest2)).data with
            | nil => exact absurd hJd hJne
            | cons j js =>
              show lastNotWs (' ' :: j :: js) = true
              unfold lastNotWs
              rw [List.getLast?_cons_cons]
              have hlast := hJstr.2
              rw [hJd] at hlast
              exact hlast
        exact String.ext hfix

/-- Claim C6, as stated, is false: `strip_and_join` does not normalize
whitespace inside a line, so the multi-line input `"a  b\nc"` renders to
`"a  b c"`, whose tokens `a` and `b` are separated by two spaces. -/
theorem C6_counterexample :
    (splitlines "a  b\nc").length = 2 ∧
    ¬ singleSpacedLine (strip_and_join "a  b\nc") := by
  decide

/-- Claim C6 (amended): `strip_and_join` discards blank and
whitespace-only lines and joins the stripped lines with exactly one space
between consecutive lines; whenever every stripped line is itself
single-spaced (its only whitespace is single interior spaces), the result
is a single line whose tokens are separated by exactly one space each,
with no leading or trailing whitespace. -/
theorem C6_strip_and_join_single_spaced (s : String)
    (h : ∀ l ∈ splitlines s, singleSpacedLine (pyStrip l)) :
    singleSpacedLine (strip_and_join s) := by
  unfold strip_and_join
  apply joinWith_single_spaced
  intro x hx
  rcases List.mem_filter.mp hx with ⟨hmem, hne⟩
  rcases List.mem_map.mp hmem with ⟨l, hl, rfl⟩
  exact ⟨by simpa using hne, h l hl⟩

/-- Witness for `C6_strip_and_join_single_spaced` at a concrete input: a
three-line template with a blank line and a whitespace-only line. -/
theorem C6_witness :
    singleSpacedLine (strip_and_join "  cmake\n   --build dir\n\n  ") :=
  C6_strip_and_join_single_spaced "  cmake\n   --build dir\n\n  " (by decide)
